import Mathlib

/-!
Verification development for the LC-3 virtual machine (`src/lc3.c`).

The C program is shallowly embedded: 16-bit machine words are `Nat` with
explicit `% 65536` wherever the C code stores into a `uint16_t`, the global
`memory` and `reg` arrays are functions `Nat → Nat`, and the execution loop
is a step function on an explicit machine state.  Code of the repository
that is referenced but not present in `src/lc3.c` (`mem_read`, `mem_write`,
`read_image`, the opcode bodies left as placeholders, the trap routines and
the terminal handling) is modelled from the specification and marked as such
in its doc comment.
-/

namespace LC3

/-- Size of the address space: `MEMORY_MAX` (`1 << 16`) from `src/lc3.c`. -/
def MEMORY_MAX : Nat := 65536

/-- Register index of the program counter (`R_PC` in `src/lc3.c`). -/
def R_PC : Nat := 8

/-- Register index of the condition-flags register (`R_COND`). -/
def R_COND : Nat := 9

/-- Condition flag `FL_POS` (`1 << 0`). -/
def FL_POS : Nat := 1

/-- Condition flag `FL_ZRO` (`1 << 1`). -/
def FL_ZRO : Nat := 2

/-- Condition flag `FL_NEG` (`1 << 2`). -/
def FL_NEG : Nat := 4

/-- Opcode values from the `enum` in `src/lc3.c`. -/
def OP_BR : Nat := 0
def OP_ADD : Nat := 1
def OP_LD : Nat := 2
def OP_ST : Nat := 3
def OP_JSR : Nat := 4
def OP_AND : Nat := 5
def OP_LDR : Nat := 6
def OP_STR : Nat := 7
def OP_RTI : Nat := 8
def OP_NOT : Nat := 9
def OP_LDI : Nat := 10
def OP_STI : Nat := 11
def OP_JMP : Nat := 12
def OP_RES : Nat := 13
def OP_LEA : Nat := 14
def OP_TRAP : Nat := 15

/-- Embedding of `sign_extend` from `src/lc3.c`:
`if ((x >> (bit_count - 1)) & 1) x |= (0xFFFF << bit_count); return x;`.
The `|=` stores into a `uint16_t`, hence the `% 65536` truncation on that
branch; the other branch returns `x` unchanged. -/
def sign_extend (x : Nat) (bit_count : Nat) : Nat :=
  if (x >>> (bit_count - 1)) &&& 1 = 1 then
    (x ||| (0xFFFF <<< bit_count)) % 65536
  else
    x

/-- Interpretation of a 16-bit word as a signed twos-complement integer. -/
def toSigned16 (v : Nat) : Int :=
  if v < 32768 then (v : Int) else (v : Int) - 65536

/-- Interpretation of the low `w` bits as a `w`-bit signed twos-complement
integer. -/
def toSignedW (w v : Nat) : Int :=
  if v < 2 ^ (w - 1) then (v : Int) else (v : Int) - 2 ^ w

/-- The mask keeping the low `w` bits of a word. -/
def mask (w : Nat) : Nat := (1 <<< w) - 1

/-- The machine state: the global `memory` and `reg` arrays of `src/lc3.c`,
plus the external keyboard device the spec describes (`inputStream` is the
sequence of characters the device delivers, `inPos` how many have been
consumed, `keyAvail` tells whether a character is available at the n-th
status poll, `polls` counts the polls) and the bytes written to the output
device. -/
structure Machine where
  memory : Nat → Nat
  reg : Nat → Nat
  inputStream : Nat → Nat
  keyAvail : Nat → Bool
  inPos : Nat
  polls : Nat
  output : List Nat

/-- Point update of an array modelled as a function. -/
def store (f : Nat → Nat) (i v : Nat) : Nat → Nat :=
  fun j => if j = i then v else f j

/-- Modelled from the spec: address of the memory-mapped keyboard status
register (not present in `src/lc3.c`; the spec fixes it only as a reserved
cell whose bit 15 is the ready bit). -/
def MR_KBSR : Nat := 0xFE00

/-- Modelled from the spec: address of the memory-mapped keyboard data
register (a fixed cell adjacent to the status register). -/
def MR_KBDR : Nat := 0xFE02

/-- Modelled from the spec: `mem_read` is called by `src/lc3.c` but not
defined there.  Per the spec, a read of the keyboard-status cell polls the
external input device as a side effect, populating the data cell and the
ready bit when a character is available; every other address is a plain
read of the cell.  The `uint16_t` address parameter is truncated
`% 65536`. -/
def mem_read (st : Machine) (addr : Nat) : Nat × Machine :=
  let address := addr % 65536
  if address = MR_KBSR then
    if st.keyAvail st.polls then
      let m := store (store st.memory MR_KBSR 32768) MR_KBDR (st.inputStream st.inPos % 65536)
      (m address, { st with memory := m, inPos := st.inPos + 1, polls := st.polls + 1 })
    else
      let m := store st.memory MR_KBSR 0
      (m address, { st with memory := m, polls := st.polls + 1 })
  else
    (st.memory address, st)

/-- Modelled from the spec: `mem_write` is not defined in `src/lc3.c`; per
the spec, writes pass through to the addressed cell unprotected. -/
def mem_write (st : Machine) (addr val : Nat) : Machine :=
  { st with memory := store st.memory (addr % 65536) (val % 65536) }

/-- Embedding of `update_flags` from `src/lc3.c`: sets `reg[R_COND]` to
`FL_ZRO`, `FL_NEG` or `FL_POS` from the value of `reg[r]`. -/
def update_flags (reg : Nat → Nat) (r : Nat) : Nat → Nat :=
  if reg r = 0 then store reg R_COND FL_ZRO
  else if reg r >>> 15 ≠ 0 then store reg R_COND FL_NEG
  else store reg R_COND FL_POS

/-- Embedding of the `OP_ADD` case of `src/lc3.c` (the execute phase, on the
post-fetch state): destination `r0`, first operand `r1`, immediate mode when
bit 5 is set; the `uint16_t` store truncates `% 65536`. -/
def execADD (st : Machine) (instr : Nat) : Machine :=
  let r0 := (instr >>> 9) &&& 0x7
  let r1 := (instr >>> 6) &&& 0x7
  let imm_flag := (instr >>> 5) &&& 0x1
  let reg1 :=
    if imm_flag ≠ 0 then
      let imm5 := sign_extend (instr &&& 0x1F) 5
      store st.reg r0 ((st.reg r1 + imm5) % 65536)
    else
      let r2 := instr &&& 0x7
      store st.reg r0 ((st.reg r1 + st.reg r2) % 65536)
  { st with reg := update_flags reg1 r0 }

/-- Embedding of the `OP_AND` case of `src/lc3.c`. -/
def execAND (st : Machine) (instr : Nat) : Machine :=
  let r0 := (instr >>> 9) &&& 0x7
  let r1 := (instr >>> 6) &&& 0x7
  let imm_flag := (instr >>> 5) &&& 0x1
  let reg1 :=
    if imm_flag ≠ 0 then
      let imm5 := sign_extend (instr &&& 0x1F) 5
      store st.reg r0 ((st.reg r1 &&& imm5) % 65536)
    else
      let r2 := instr &&& 0x7
      store st.reg r0 ((st.reg r1 &&& st.reg r2) % 65536)
  { st with reg := update_flags reg1 r0 }

/-- Embedding of the `OP_LDI` case of `src/lc3.c`:
`reg[r0] = mem_read(mem_read(reg[R_PC] + pc_offset))`, then flags. -/
def execLDI (st : Machine) (instr : Nat) : Machine :=
  let r0 := (instr >>> 9) &&& 0x7
  let pc_offset := sign_extend (instr &&& 0x1FF) 9
  let p := mem_read st (st.reg R_PC + pc_offset)
  let q := mem_read p.2 p.1
  { q.2 with reg := update_flags (store q.2.reg r0 q.1) r0 }

/-- Modelled from the spec: the `OP_NOT` body is a placeholder in
`src/lc3.c`; result is the 16-bit bitwise complement of the source, flags
updated. -/
def execNOT (st : Machine) (instr : Nat) : Machine :=
  let r0 := (instr >>> 9) &&& 0x7
  let r1 := (instr >>> 6) &&& 0x7
  { st with reg := update_flags (store st.reg r0 ((st.reg r1 ^^^ 0xFFFF) % 65536)) r0 }

/-- Modelled from the spec: the `OP_BR` body is a placeholder in
`src/lc3.c`; branch taken iff the instruction condition bits intersect the
current flag, adding the sign-extended 9-bit offset to the post-increment
PC. -/
def execBR (st : Machine) (instr : Nat) : Machine :=
  let cond_flag := (instr >>> 9) &&& 0x7
  if cond_flag &&& st.reg R_COND ≠ 0 then
    { st with reg := store st.reg R_PC ((st.reg R_PC + sign_extend (instr &&& 0x1FF) 9) % 65536) }
  else
    st

/-- Modelled from the spec: the `OP_JMP` body is a placeholder in
`src/lc3.c`; `PC := reg[base]`. -/
def execJMP (st : Machine) (instr : Nat) : Machine :=
  { st with reg := store st.reg R_PC (st.reg ((instr >>> 6) &&& 0x7)) }

/-- Modelled from the spec: the `OP_JSR` body is a placeholder in
`src/lc3.c`; `R7 := PC`, then PC from an 11-bit offset (mode bit 11 set) or
from a base register. -/
def execJSR (st : Machine) (instr : Nat) : Machine :=
  let reg1 := store st.reg 7 (st.reg R_PC)
  if (instr >>> 11) &&& 1 ≠ 0 then
    { st with reg := store reg1 R_PC ((reg1 R_PC + sign_extend (instr &&& 0x7FF) 11) % 65536) }
  else
    { st with reg := store reg1 R_PC (reg1 ((instr >>> 6) &&& 0x7)) }

/-- Modelled from the spec: the `OP_LD` body is a placeholder in
`src/lc3.c`; loads from PC plus the sign-extended 9-bit offset, flags
updated. -/
def execLD (st : Machine) (instr : Nat) : Machine :=
  let r0 := (instr >>> 9) &&& 0x7
  let p := mem_read st (st.reg R_PC + sign_extend (instr &&& 0x1FF) 9)
  { p.2 with reg := update_flags (store p.2.reg r0 p.1) r0 }

/-- Modelled from the spec: the `OP_LDR` body is a placeholder in
`src/lc3.c`; loads from a base register plus the sign-extended 6-bit
offset, flags updated. -/
def execLDR (st : Machine) (instr : Nat) : Machine :=
  let r0 := (instr >>> 9) &&& 0x7
  let r1 := (instr >>> 6) &&& 0x7
  let p := mem_read st (st.reg r1 + sign_extend (instr &&& 0x3F) 6)
  { p.2 with reg := update_flags (store p.2.reg r0 p.1) r0 }

/-- Modelled from the spec: the `OP_LEA` body is a placeholder in
`src/lc3.c`; stores the effective address itself (no memory access), flags
updated. -/
def execLEA (st : Machine) (instr : Nat) : Machine :=
  let r0 := (instr >>> 9) &&& 0x7
  { st with reg := update_flags (store st.reg r0 ((st.reg R_PC + sign_extend (instr &&& 0x1FF) 9) % 65536)) r0 }

/-- Modelled from the spec: the `OP_ST` body is a placeholder in
`src/lc3.c`; stores the source register at PC plus the sign-extended 9-bit
offset, no flag effect. -/
def execST (st : Machine) (instr : Nat) : Machine :=
  mem_write st (st.reg R_PC + sign_extend (instr &&& 0x1FF) 9) (st.reg ((instr >>> 9) &&& 0x7))

/-- Modelled from the spec: the `OP_STI` body is a placeholder in
`src/lc3.c`; one extra level of indirection, writing at the address stored
at the effective address. -/
def execSTI (st : Machine) (instr : Nat) : Machine :=
  let p := mem_read st (st.reg R_PC + sign_extend (instr &&& 0x1FF) 9)
  mem_write p.2 p.1 (p.2.reg ((instr >>> 9) &&& 0x7))

/-- Modelled from the spec: the `OP_STR` body is a placeholder in
`src/lc3.c`; stores at a base register plus the sign-extended 6-bit
offset. -/
def execSTR (st : Machine) (instr : Nat) : Machine :=
  mem_write st (st.reg ((instr >>> 6) &&& 0x7) + sign_extend (instr &&& 0x3F) 6)
    (st.reg ((instr >>> 9) &&& 0x7))

/-- Modelled from the spec: the prompt the IN trap writes; the spec does not
fix the text, so the model uses a placeholder byte. -/
def promptMsg : List Nat := [62]

/-- Modelled from the spec: the message the HALT trap writes; the spec does
not fix the text, so the model uses a placeholder ("HALT"). -/
def haltMsg : List Nat := [72, 65, 76, 84]

/-- Modelled from the spec: trap GETC (vector 0x20) blocks for one character
(no echo) and stores it into R0 with the high byte zeroed. -/
def trapGETC (st : Machine) : Machine :=
  { st with reg := store st.reg 0 (st.inputStream st.inPos &&& 0xFF), inPos := st.inPos + 1 }

/-- Modelled from the spec: trap OUT (vector 0x21) writes the low byte of R0
to the output device. -/
def trapOUT (st : Machine) : Machine :=
  { st with output := st.output ++ [st.reg 0 &&& 0xFF] }

/-- Modelled from the spec: the word-walk of trap PUTS, one character (low
byte) per word until a zero word; the fuel bounds the walk by the size of
the address space. -/
def putsLoop : Nat → Machine → Nat → Machine
  | 0, st, _ => st
  | fuel + 1, st, a =>
    if st.memory (a % 65536) = 0 then st
    else putsLoop fuel { st with output := st.output ++ [st.memory (a % 65536) &&& 0xFF] } (a + 1)

/-- Modelled from the spec: trap PUTS (vector 0x22) writes the low byte of
each word starting at address R0 until a zero word. -/
def trapPUTS (st : Machine) : Machine :=
  putsLoop MEMORY_MAX st (st.reg 0)

/-- Modelled from the spec: trap IN (vector 0x23) writes a prompt, blocks
for one character, echoes it and stores it into R0 as GETC does. -/
def trapIN (st : Machine) : Machine :=
  let c := st.inputStream st.inPos &&& 0xFF
  { st with
    output := (st.output ++ promptMsg) ++ [c]
    reg := store st.reg 0 c
    inPos := st.inPos + 1 }

/-- Modelled from the spec: the word-walk of trap PUTSP, two packed
characters per word (low byte then high byte, the high byte skipped when
zero) until a zero byte. -/
def putspLoop : Nat → Machine → Nat → Machine
  | 0, st, _ => st
  | fuel + 1, st, a =>
    let lo := st.memory (a % 65536) &&& 0xFF
    if lo = 0 then st
    else
      let hi := (st.memory (a % 65536) >>> 8) &&& 0xFF
      let st1 := { st with output := st.output ++ [lo] }
      let st2 := if hi ≠ 0 then { st1 with output := st1.output ++ [hi] } else st1
      putspLoop fuel st2 (a + 1)

/-- Modelled from the spec: trap PUTSP (vector 0x24). -/
def trapPUTSP (st : Machine) : Machine :=
  putspLoop MEMORY_MAX st (st.reg 0)

/-- Modelled from the spec: trap HALT (vector 0x25) writes a halt message;
the run-state transition to HALTED is made by `execTRAP`. -/
def trapHALT (st : Machine) : Machine :=
  { st with output := st.output ++ haltMsg }

/-- The run state of the execution loop, per the spec state machine:
RUNNING, HALTED (clean shutdown via the HALT trap) or FAILED (fatal abort
via `abort()` on a reserved opcode). -/
inductive ExecState where
  | running (st : Machine)
  | halted (st : Machine)
  | failed (st : Machine)

/-- Modelled from the spec: the `OP_TRAP` body is a placeholder in
`src/lc3.c`; dispatch on the 8-bit trap vector.  HALT leaves the execution
loop; an unknown vector is left unhandled (a no-op), as the spec records
for the reference design. -/
def execTRAP (st : Machine) (instr : Nat) : ExecState :=
  if instr &&& 0xFF = 0x20 then .running (trapGETC st)
  else if instr &&& 0xFF = 0x21 then .running (trapOUT st)
  else if instr &&& 0xFF = 0x22 then .running (trapPUTS st)
  else if instr &&& 0xFF = 0x23 then .running (trapIN st)
  else if instr &&& 0xFF = 0x24 then .running (trapPUTSP st)
  else if instr &&& 0xFF = 0x25 then .halted (trapHALT st)
  else .running st

/-- The switch of the execution loop in `src/lc3.c`, on the post-fetch
state: dispatch on `instr >> 12`.  The `OP_RES` and `OP_RTI` cases and the
`default` case call `abort()`, embedded as the FAILED state. -/
def execute (st : Machine) (instr : Nat) : ExecState :=
  let op := instr >>> 12
  if op = OP_ADD then .running (execADD st instr)
  else if op = OP_AND then .running (execAND st instr)
  else if op = OP_NOT then .running (execNOT st instr)
  else if op = OP_BR then .running (execBR st instr)
  else if op = OP_JMP then .running (execJMP st instr)
  else if op = OP_JSR then .running (execJSR st instr)
  else if op = OP_LD then .running (execLD st instr)
  else if op = OP_LDI then .running (execLDI st instr)
  else if op = OP_LDR then .running (execLDR st instr)
  else if op = OP_LEA then .running (execLEA st instr)
  else if op = OP_ST then .running (execST st instr)
  else if op = OP_STI then .running (execSTI st instr)
  else if op = OP_STR then .running (execSTR st instr)
  else if op = OP_TRAP then execTRAP st instr
  else .failed st

/-- One iteration of the `while (running)` loop of `src/lc3.c`: fetch
`instr = mem_read(reg[R_PC]++)` (the post-increment wraps `% 65536`), then
dispatch.  HALTED and FAILED are terminal. -/
def step : ExecState → ExecState
  | .running st =>
    execute
      { (mem_read st (st.reg R_PC)).2 with
        reg := store (mem_read st (st.reg R_PC)).2.reg R_PC ((st.reg R_PC + 1) % 65536) }
      (mem_read st (st.reg R_PC)).1
  | .halted st => .halted st
  | .failed st => .failed st

/-- Iterating the execution loop a bounded number of times. -/
def runLoop : Nat → ExecState → ExecState
  | 0, s => s
  | n + 1, s => runLoop n (step s)

/-- One loaded image: the origin word followed by the payload words, as the
spec describes the image file format. -/
structure Image where
  origin : Nat
  words : List Nat

/-- Modelled from the spec: storing an image payload words at consecutive
addresses starting at the origin (`read_image` is not part of
`src/lc3.c`). -/
def loadWords (m : Nat → Nat) (a : Nat) : List Nat → (Nat → Nat)
  | [] => m
  | w :: ws => loadWords (store m (a % 65536) (w % 65536)) (a + 1) ws

/-- Loading a sequence of images in order (later loads may overwrite
earlier ones). -/
def loadImages (m : Nat → Nat) : List Image → (Nat → Nat)
  | [] => m
  | img :: rest => loadImages (loadWords m img.origin img.words) rest

/-- The machine state at the start of execution, before the first fetch:
the global `memory` and `reg` arrays are zero-initialized, the loader
populates memory from the images, and `main` sets `reg[R_COND] = FL_ZRO`
and `reg[R_PC] = 0x3000` (lines 97-103 of `src/lc3.c`). -/
def initialMachine (imgs : List Image) (inputStream : Nat → Nat) (keyAvail : Nat → Bool) :
    Machine :=
  { memory := loadImages (fun _ => 0) imgs
    reg := store (store (fun _ => 0) R_COND FL_ZRO) R_PC 0x3000
    inputStream := inputStream
    keyAvail := keyAvail
    inPos := 0
    polls := 0
    output := [] }

/-- Whether the loader writes address `a` when loading `imgs`. -/
def loaderTouches (imgs : List Image) (a : Nat) : Bool :=
  imgs.any fun img => (List.range img.words.length).any fun i => (img.origin + i) % 65536 = a

/-- The observable outcome of one invocation of the process.  `exited`
carries the exit code, whether the execution loop was entered, and whether
the terminal input buffering was restored before termination; `aborted` is
the `abort()` path (abnormal termination, no exit code); `interrupted` is
termination from the external interrupt handler; `stillRunning` means the
fuel ran out with the loop still in RUNNING state. -/
inductive Outcome where
  | exited (code : Nat) (enteredLoop : Bool) (restoredInput : Bool)
  | aborted (restoredInput : Bool)
  | interrupted (restoredInput : Bool)
  | stillRunning
deriving DecidableEq

/-- Checking the image arguments in order: the first one that fails to load
(`none`) aborts the startup, as the `read_image` loop of `src/lc3.c` exits
at the first failure. -/
def checkImages : List (Option Image) → Option (List Image)
  | [] => some []
  | none :: _ => none
  | some img :: rest => (checkImages rest).map (img :: ·)

/-- Embedding of `main` from `src/lc3.c`: `argc < 2` prints usage and exits
with code 2; a failing `read_image` exits with code 1; otherwise input
buffering is disabled, the machine is initialized and the loop runs.  When
the loop leaves RUNNING (only HALT does this), `restore_input_buffering()`
runs and `main` returns 0; the `abort()` path terminates the process before
line 195, so input buffering is not restored there.  Each `args` entry is
one image-file argument, `none` standing for a file that fails to load. -/
def lc3_main (args : List (Option Image)) (inputStream : Nat → Nat) (keyAvail : Nat → Bool)
    (fuel : Nat) : Outcome :=
  if args.isEmpty then .exited 2 false false
  else
    match checkImages args with
    | none => .exited 1 false false
    | some imgs =>
      match runLoop fuel (.running (initialMachine imgs inputStream keyAvail)) with
      | .halted _ => .exited 0 true true
      | .failed _ => .aborted false
      | .running _ => .stillRunning

/-- Modelled from the spec: `handle_interrupt` is not part of `src/lc3.c`;
per the spec, an external interrupt restores the input device mode and
terminates the process. -/
def handle_interrupt : Outcome :=
  .interrupted true

/-- Whether a terminated-with-raw-mode-held outcome restored the terminal
input buffering: `none` for outcomes that never acquired raw mode (startup
failures) or that did not terminate. -/
def restoredOn : Outcome → Option Bool
  | .exited _ enteredLoop r => if enteredLoop then some r else none
  | .aborted r => some r
  | .interrupted r => some r
  | .stillRunning => none

/-- The condition-flag value `update_flags` computes from a register value:
zero gives `FL_ZRO`, a set bit 15 gives `FL_NEG`, otherwise `FL_POS`. -/
def flagOf (v : Nat) : Nat :=
  if v = 0 then FL_ZRO else if v >>> 15 ≠ 0 then FL_NEG else FL_POS

/-- The spec condition-flag invariant, on a flags value `c` and a
register value `v`: `c` is exactly one of the three flags, and which one is
determined by the twos-complement sign/zero-ness of `v`. -/
def flagMatch (c v : Nat) : Prop :=
  (c = FL_NEG ∨ c = FL_ZRO ∨ c = FL_POS) ∧
    (c = FL_ZRO ↔ v = 0) ∧
    (c = FL_NEG ↔ 32768 ≤ v) ∧
    (c = FL_POS ↔ 0 < v ∧ v < 32768)

/-- Encoding of an ADD instruction in immediate mode, per the instruction
format of the spec: opcode in bits 15-12, destination in bits 11-9, first
source in bits 8-6, the mode bit 5 set, the 5-bit immediate in bits 4-0. -/
def encADDi (dr sr1 k : Nat) : Nat := 4096 * OP_ADD + 512 * dr + 64 * sr1 + 32 + k

/-- Encoding of an ADD instruction in register mode: mode bit 5 clear, the
second source register in bits 2-0. -/
def encADDr (dr sr1 sr2 : Nat) : Nat := 4096 * OP_ADD + 512 * dr + 64 * sr1 + sr2

/-- Encoding of an AND instruction in immediate mode. -/
def encANDi (dr sr1 k : Nat) : Nat := 4096 * OP_AND + 512 * dr + 64 * sr1 + 32 + k

/-- Encoding of an AND instruction in register mode. -/
def encANDr (dr sr1 sr2 : Nat) : Nat := 4096 * OP_AND + 512 * dr + 64 * sr1 + sr2

/-- A machine with all-zero memory and registers and a silent input
device, used as the base state of concrete runs. -/
def zeroMachine : Machine :=
  { memory := fun _ => 0
    reg := fun _ => 0
    inputStream := fun _ => 0
    keyAvail := fun _ => false
    inPos := 0
    polls := 0
    output := [] }

/-- A machine whose PC points at a word with the reserved opcode 0x8. -/
def resMachine : Machine :=
  { zeroMachine with memory := fun _ => 0x8000, reg := store (fun _ => 0) R_PC 0x3000 }

/-- A machine holding `sign_extend 17 5` in register 2, used to exercise
the immediate/register equivalence at a concrete input. -/
def immRegMachine : Machine :=
  { zeroMachine with reg := store (fun _ => 0) 2 (sign_extend 17 5) }

end LC3

namespace LC3

theorem or_shiftLeft_eq_add {u w : Nat} (m : Nat) (hu : u < 2 ^ w) :
    u ||| (m <<< w) = 2 ^ w * m + u := by
  apply Nat.eq_of_testBit_eq
  intro i
  rw [Nat.testBit_or, Nat.testBit_shiftLeft, Nat.testBit_mul_pow_two_add m hu i]
  by_cases h : i < w
  · simp [h, Nat.not_le.mpr h]
  · have hle : w ≤ i := Nat.le_of_not_lt h
    have hbit : u.testBit i = false :=
      Nat.testBit_lt_two_pow (lt_of_lt_of_le hu (Nat.pow_le_pow_right (by norm_num) hle))
    simp [h, hle, hbit]

theorem sign_extend_exact_general (w u : Nat) (hw1 : 1 ≤ w) (hw16 : w ≤ 16)
    (hu : u < 2 ^ w) : toSigned16 (sign_extend u w) = toSignedW w u := by
  have hsplit : 2 ^ w = 2 * 2 ^ (w - 1) := by
    cases w with
    | zero => omega
    | succ n => rw [Nat.succ_sub_one, Nat.pow_succ]; ring
  have hq : 2 ^ (w - 1) ≤ 2 ^ 15 := Nat.pow_le_pow_right (by norm_num) (by omega)
  have hp : 2 ^ w ≤ 2 ^ 16 := Nat.pow_le_pow_right (by norm_num) hw16
  have hcast : ((2 : Int)) ^ w = ((2 ^ w : Nat) : Int) := by push_cast; ring
  unfold sign_extend toSigned16 toSignedW
  rw [Nat.shiftRight_eq_div_pow, Nat.and_one_is_mod]
  by_cases hlow : u < 2 ^ (w - 1)
  · rw [Nat.div_eq_of_lt hlow]
    norm_num
    rw [if_pos (lt_of_lt_of_le hlow (le_trans hq (by norm_num))), if_pos hlow]
  · have hdiv : u / 2 ^ (w - 1) = 1 := by
      apply Nat.div_eq_of_lt_le
      · omega
      · omega
    rw [hdiv]
    norm_num
    rw [or_shiftLeft_eq_add 0xFFFF hu]
    have hmod : (2 ^ w * 0xFFFF + u) % 65536 = 65536 - 2 ^ w + u := by
      omega
    rw [hmod, if_neg (by omega), if_neg hlow, hcast]
    omega

theorem mask_lt (w : Nat) (x : Nat) : x &&& mask w < 2 ^ w := by
  have h : mask w < 2 ^ w := by
    simp only [mask, Nat.shiftLeft_eq, one_mul]
    exact Nat.sub_lt (Nat.pos_pow_of_pos w (by norm_num)) (by norm_num)
  exact Nat.and_lt_two_pow x h

/-- Claim C1: For every 16-bit value `v` and every bit width `w` in 5, 6, 9, 11,
`sign_extend (v &&& mask w) w` interpreted as a signed 16-bit twos-complement
value equals the low `w` bits of `v` interpreted as a `w`-bit signed value:
sign extension is exact for the widths actually used for immediates and
offsets. -/
theorem sign_extend_exact_on_widths (v w : Nat) (_hv : v < 65536)
    (hw : w = 5 ∨ w = 6 ∨ w = 9 ∨ w = 11) :
    toSigned16 (sign_extend (v &&& mask w) w) = toSignedW w (v &&& mask w) := by
  rcases hw with h | h | h | h <;> subst h
  · exact sign_extend_exact_general 5 _ (by norm_num) (by norm_num) (mask_lt 5 v)
  · exact sign_extend_exact_general 6 _ (by norm_num) (by norm_num) (mask_lt 6 v)
  · exact sign_extend_exact_general 9 _ (by norm_num) (by norm_num) (mask_lt 9 v)
  · exact sign_extend_exact_general 11 _ (by norm_num) (by norm_num) (mask_lt 11 v)

theorem sign_extend_exact_on_widths_witness :
    0x1234 < 65536 ∧
      toSigned16 (sign_extend (0x1234 &&& mask 9) 9) = toSignedW 9 (0x1234 &&& mask 9) :=
  ⟨by decide, sign_extend_exact_on_widths 0x1234 9 (by decide) (by decide)⟩

/-- Claim C9: `sign_extend` does not mask its input: whenever bit `w - 1` of `x`
is clear, `sign_extend x w = x` exactly, including any nonzero bits above
position `w - 1`.  Its output is therefore a correct sign extension only
under the precondition that `x` occupies the low `w` bits. -/
theorem sign_extend_no_masking (x w : Nat) (_hx : x < 65536)
    (h : (x >>> (w - 1)) &&& 1 = 0) : sign_extend x w = x := by
  unfold sign_extend
  rw [h]
  simp

theorem sign_extend_no_masking_witness :
    0x60 < 65536 ∧ (0x60 >>> 4) &&& 1 = 0 ∧ sign_extend 0x60 5 = 0x60 :=
  ⟨by decide, by decide, sign_extend_no_masking 0x60 5 (by decide) (by decide)⟩

theorem store_self (f : Nat → Nat) (i v : Nat) : store f i v i = v := by
  simp [store]

theorem store_other (f : Nat → Nat) {i j : Nat} (v : Nat) (h : j ≠ i) : store f i v j = f j := by
  simp [store, h]

theorem and7_lt (x : Nat) : x &&& 7 < 8 :=
  Nat.lt_of_le_of_lt Nat.and_le_right (by norm_num)

theorem and7_ne_rcond (x : Nat) : x &&& 7 ≠ R_COND := by
  have := and7_lt x
  unfold R_COND
  omega

theorem update_flags_other (g : Nat → Nat) (r : Nat) {j : Nat} (h : j ≠ R_COND) :
    update_flags g r j = g j := by
  unfold update_flags
  split_ifs <;> exact store_other _ _ h

theorem update_flags_cond (g : Nat → Nat) (r : Nat) :
    update_flags g r R_COND = flagOf (g r) := by
  unfold update_flags flagOf
  split_ifs <;> exact store_self _ _ _

theorem flagMatch_flagOf (v : Nat) : flagMatch (flagOf v) v := by
  unfold flagMatch flagOf FL_NEG FL_ZRO FL_POS
  rw [Nat.shiftRight_eq_div_pow]
  norm_num
  split_ifs <;> exact ⟨by omega, by omega, by omega, by omega⟩

theorem update_flags_flagMatch (g : Nat → Nat) (r : Nat) (hr : r ≠ R_COND) :
    flagMatch (update_flags g r R_COND) (update_flags g r r) := by
  rw [update_flags_cond, update_flags_other g r hr]
  exact flagMatch_flagOf (g r)

/-- Claim C2: After every flag-updating instruction of the implemented code
(ADD, AND and LDI, all through `update_flags`), the condition-flags
register holds exactly one of FL_NEG, FL_ZRO, FL_POS, determined by the
destination register new value interpreted as a twos-complement 16-bit
word: zero gives FL_ZRO, a set high bit gives FL_NEG, otherwise FL_POS. -/
theorem flags_invariant_ADD_AND_LDI (st : Machine) (instr : Nat) :
    flagMatch ((execADD st instr).reg R_COND) ((execADD st instr).reg ((instr >>> 9) &&& 0x7)) ∧
    flagMatch ((execAND st instr).reg R_COND) ((execAND st instr).reg ((instr >>> 9) &&& 0x7)) ∧
    flagMatch ((execLDI st instr).reg R_COND) ((execLDI st instr).reg ((instr >>> 9) &&& 0x7)) := by
  refine ⟨?_, ?_, ?_⟩
  · exact update_flags_flagMatch _ _ (and7_ne_rcond _)
  · exact update_flags_flagMatch _ _ (and7_ne_rcond _)
  · exact update_flags_flagMatch _ _ (and7_ne_rcond _)

/-- Claim C10: Every execution of an ADD or AND instruction (either mode)
modifies only the destination register and the condition-flags register:
memory, the device state, the output, and every register other than the
destination and `R_COND` (the PC among them) are unchanged; and the result
stored in the destination is computed from the values the source registers
held before the write, so it is correct even when the destination index
equals a source index. -/
theorem add_and_frame (st : Machine) (instr : Nat) :
    ((execADD st instr).memory = st.memory ∧
      (execADD st instr).output = st.output ∧
      (execADD st instr).inPos = st.inPos ∧
      (execADD st instr).polls = st.polls ∧
      (∀ i, i ≠ (instr >>> 9) &&& 0x7 → i ≠ R_COND → (execADD st instr).reg i = st.reg i) ∧
      (execADD st instr).reg ((instr >>> 9) &&& 0x7) =
        (if (instr >>> 5) &&& 0x1 ≠ 0 then
          (st.reg ((instr >>> 6) &&& 0x7) + sign_extend (instr &&& 0x1F) 5) % 65536
        else
          (st.reg ((instr >>> 6) &&& 0x7) + st.reg (instr &&& 0x7)) % 65536)) ∧
    ((execAND st instr).memory = st.memory ∧
      (execAND st instr).output = st.output ∧
      (execAND st instr).inPos = st.inPos ∧
      (execAND st instr).polls = st.polls ∧
      (∀ i, i ≠ (instr >>> 9) &&& 0x7 → i ≠ R_COND → (execAND st instr).reg i = st.reg i) ∧
      (execAND st instr).reg ((instr >>> 9) &&& 0x7) =
        (if (instr >>> 5) &&& 0x1 ≠ 0 then
          (st.reg ((instr >>> 6) &&& 0x7) &&& sign_extend (instr &&& 0x1F) 5) % 65536
        else
          (st.reg ((instr >>> 6) &&& 0x7) &&& st.reg (instr &&& 0x7)) % 65536)) := by
  refine ⟨⟨rfl, rfl, rfl, rfl, ?_, ?_⟩, ⟨rfl, rfl, rfl, rfl, ?_, ?_⟩⟩
  · intro i h1 h2
    show update_flags _ _ i = st.reg i
    rw [update_flags_other _ _ h2]
    split_ifs <;> exact store_other _ _ h1
  · show update_flags _ _ ((instr >>> 9) &&& 0x7) = _
    rw [update_flags_other _ _ (and7_ne_rcond _)]
    split_ifs <;> exact store_self _ _ _
  · intro i h1 h2
    show update_flags _ _ i = st.reg i
    rw [update_flags_other _ _ h2]
    split_ifs <;> exact store_other _ _ h1
  · show update_flags _ _ ((instr >>> 9) &&& 0x7) = _
    rw [update_flags_other _ _ (and7_ne_rcond _)]
    split_ifs <;> exact store_self _ _ _

/-- Claim C4: For every machine state (as it stands after the fetch
increment) and every LDI instruction word, with effective address
`A = PC + sign_extend (offset9)`, LDI stores into the destination register
exactly the value a direct memory read at the address stored at `A`
returns (double indirection), and then sets the condition flags from that
loaded value. -/
theorem ldi_double_indirection (st : Machine) (instr : Nat) :
    (execLDI st instr).reg ((instr >>> 9) &&& 0x7) =
      (mem_read (mem_read st (st.reg R_PC + sign_extend (instr &&& 0x1FF) 9)).2
        (mem_read st (st.reg R_PC + sign_extend (instr &&& 0x1FF) 9)).1).1 ∧
    (execLDI st instr).reg R_COND =
      flagOf
        (mem_read (mem_read st (st.reg R_PC + sign_extend (instr &&& 0x1FF) 9)).2
          (mem_read st (st.reg R_PC + sign_extend (instr &&& 0x1FF) 9)).1).1 := by
  constructor
  · show update_flags _ _ ((instr >>> 9) &&& 0x7) = _
    rw [update_flags_other _ _ (and7_ne_rcond _)]
    exact store_self _ _ _
  · show update_flags _ _ R_COND = _
    rw [update_flags_cond, store_self]

theorem runLoop_failed (n : Nat) (m : Machine) : runLoop n (.failed m) = .failed m := by
  induction n with
  | zero => rfl
  | succ k ih =>
    show runLoop k (step (.failed m)) = ExecState.failed m
    exact ih

/-- Claim C5: Fetching an instruction whose opcode field (bits 15-12) is one
of the two reserved values (`OP_RTI = 0x8` or `OP_RES = 0xD`) makes the
execution loop call `abort()`: the step produces the FAILED state holding
exactly the post-fetch machine (no register or memory change beyond the
fetch itself), and FAILED is terminal, so no subsequent instruction is
fetched or executed. -/
theorem reserved_opcode_aborts (st : Machine)
    (h : (mem_read st (st.reg R_PC)).1 >>> 12 = OP_RTI ∨
      (mem_read st (st.reg R_PC)).1 >>> 12 = OP_RES) :
    step (.running st) =
      .failed
        { (mem_read st (st.reg R_PC)).2 with
          reg := store (mem_read st (st.reg R_PC)).2.reg R_PC ((st.reg R_PC + 1) % 65536) } ∧
    ∀ n, runLoop n (step (.running st)) = step (.running st) := by
  have hstep : step (.running st) =
      .failed
        { (mem_read st (st.reg R_PC)).2 with
          reg := store (mem_read st (st.reg R_PC)).2.reg R_PC ((st.reg R_PC + 1) % 65536) } := by
    show execute _ _ = _
    rcases h with h | h <;>
      simp [execute, h, OP_ADD, OP_AND, OP_NOT, OP_BR, OP_JMP, OP_JSR, OP_LD, OP_LDI, OP_LDR,
        OP_LEA, OP_ST, OP_STI, OP_STR, OP_TRAP, OP_RTI, OP_RES]
  refine ⟨hstep, fun n => ?_⟩
  rw [hstep, runLoop_failed]

theorem reserved_opcode_aborts_witness :
    (mem_read resMachine (resMachine.reg R_PC)).1 >>> 12 = OP_RTI ∧
      runLoop 3 (step (.running resMachine)) = step (.running resMachine) :=
  ⟨by decide, (reserved_opcode_aborts resMachine (Or.inl (by decide))).2 3⟩

theorem and7_mod (x : Nat) : x &&& 0x7 = x % 8 := by
  have h := Nat.and_pow_two_sub_one_eq_mod x 3
  norm_num at h
  exact h

theorem and31_mod (x : Nat) : x &&& 0x1F = x % 32 := by
  have h := Nat.and_pow_two_sub_one_eq_mod x 5
  norm_num at h
  exact h

theorem shr5_div (x : Nat) : x >>> 5 = x / 32 := by
  rw [Nat.shiftRight_eq_div_pow]

theorem shr6_div (x : Nat) : x >>> 6 = x / 64 := by
  rw [Nat.shiftRight_eq_div_pow]

theorem shr9_div (x : Nat) : x >>> 9 = x / 512 := by
  rw [Nat.shiftRight_eq_div_pow]

/-- Claim C3: For every machine state, destination register, source
registers and 5-bit immediate `k`, executing ADD (respectively AND) in
immediate mode with immediate `k` produces exactly the same
destination-register value and condition flags as executing it in register
mode when the second source register holds `sign_extend k 5`. -/
theorem add_and_imm_reg_equiv (st : Machine) (dr sr1 sr2 k : Nat)
    (hdr : dr < 8) (h1 : sr1 < 8) (h2 : sr2 < 8) (hk : k < 32)
    (hs : st.reg sr2 = sign_extend k 5) :
    ((execADD st (encADDi dr sr1 k)).reg dr = (execADD st (encADDr dr sr1 sr2)).reg dr ∧
      (execADD st (encADDi dr sr1 k)).reg R_COND = (execADD st (encADDr dr sr1 sr2)).reg R_COND) ∧
    ((execAND st (encANDi dr sr1 k)).reg dr = (execAND st (encANDr dr sr1 sr2)).reg dr ∧
      (execAND st (encANDi dr sr1 k)).reg R_COND = (execAND st (encANDr dr sr1 sr2)).reg R_COND) := by
  have ai1 : (encADDi dr sr1 k >>> 9) &&& 0x7 = dr := by
    unfold encADDi OP_ADD; rw [shr9_div, and7_mod]; omega
  have ai2 : (encADDi dr sr1 k >>> 6) &&& 0x7 = sr1 := by
    unfold encADDi OP_ADD; rw [shr6_div, and7_mod]; omega
  have ai3 : (encADDi dr sr1 k >>> 5) &&& 0x1 = 1 := by
    unfold encADDi OP_ADD; rw [Nat.and_one_is_mod, shr5_div]; omega
  have ai4 : encADDi dr sr1 k &&& 0x1F = k := by
    unfold encADDi OP_ADD; rw [and31_mod]; omega
  have ar1 : (encADDr dr sr1 sr2 >>> 9) &&& 0x7 = dr := by
    unfold encADDr OP_ADD; rw [shr9_div, and7_mod]; omega
  have ar2 : (encADDr dr sr1 sr2 >>> 6) &&& 0x7 = sr1 := by
    unfold encADDr OP_ADD; rw [shr6_div, and7_mod]; omega
  have ar3 : (encADDr dr sr1 sr2 >>> 5) &&& 0x1 = 0 := by
    unfold encADDr OP_ADD; rw [Nat.and_one_is_mod, shr5_div]; omega
  have ar4 : encADDr dr sr1 sr2 &&& 0x7 = sr2 := by
    unfold encADDr OP_ADD; rw [and7_mod]; omega
  have ni1 : (encANDi dr sr1 k >>> 9) &&& 0x7 = dr := by
    unfold encANDi OP_AND; rw [shr9_div, and7_mod]; omega
  have ni2 : (encANDi dr sr1 k >>> 6) &&& 0x7 = sr1 := by
    unfold encANDi OP_AND; rw [shr6_div, and7_mod]; omega
  have ni3 : (encANDi dr sr1 k >>> 5) &&& 0x1 = 1 := by
    unfold encANDi OP_AND; rw [Nat.and_one_is_mod, shr5_div]; omega
  have ni4 : encANDi dr sr1 k &&& 0x1F = k := by
    unfold encANDi OP_AND; rw [and31_mod]; omega
  have nr1 : (encANDr dr sr1 sr2 >>> 9) &&& 0x7 = dr := by
    unfold encANDr OP_AND; rw [shr9_div, and7_mod]; omega
  have nr2 : (encANDr dr sr1 sr2 >>> 6) &&& 0x7 = sr1 := by
    unfold encANDr OP_AND; rw [shr6_div, and7_mod]; omega
  have nr3 : (encANDr dr sr1 sr2 >>> 5) &&& 0x1 = 0 := by
    unfold encANDr OP_AND; rw [Nat.and_one_is_mod, shr5_div]; omega
  have nr4 : encANDr dr sr1 sr2 &&& 0x7 = sr2 := by
    unfold encANDr OP_AND; rw [and7_mod]; omega
  have eADD : execADD st (encADDi dr sr1 k) = execADD st (encADDr dr sr1 sr2) := by
    simp [execADD, ai1, ai2, ai3, ai4, ar1, ar2, ar3, ar4, hs]
  have eAND : execAND st (encANDi dr sr1 k) = execAND st (encANDr dr sr1 sr2) := by
    simp [execAND, ni1, ni2, ni3, ni4, nr1, nr2, nr3, nr4, hs]
  exact ⟨⟨by rw [eADD], by rw [eADD]⟩, ⟨by rw [eAND], by rw [eAND]⟩⟩

theorem add_and_imm_reg_equiv_witness :
    immRegMachine.reg 2 = sign_extend 17 5 ∧
      (execADD immRegMachine (encADDi 1 0 17)).reg 1 =
        (execADD immRegMachine (encADDr 1 0 2)).reg 1 ∧
      (execAND immRegMachine (encANDi 1 0 17)).reg R_COND =
        (execAND immRegMachine (encANDr 1 0 2)).reg R_COND :=
  ⟨by decide,
    (add_and_imm_reg_equiv immRegMachine 1 0 2 17 (by decide) (by decide) (by decide)
      (by decide) (by decide)).1.1,
    (add_and_imm_reg_equiv immRegMachine 1 0 2 17 (by decide) (by decide) (by decide)
      (by decide) (by decide)).2.2⟩

theorem add_and_frame_witness :
    3 ≠ (0x1065 >>> 9) &&& 0x7 ∧ 3 ≠ R_COND ∧
      (execADD zeroMachine 0x1065).reg 3 = zeroMachine.reg 3 ∧
      (execADD zeroMachine 0x1065).memory = zeroMachine.memory :=
  ⟨by decide, by decide,
    (add_and_frame zeroMachine 0x1065).1.2.2.2.2.1 3 (by decide) (by decide),
    (add_and_frame zeroMachine 0x1065).1.1⟩

theorem loadWords_untouched (ws : List Nat) (m : Nat → Nat) (a x : Nat)
    (h : ∀ i, i < ws.length → (a + i) % 65536 ≠ x) : loadWords m a ws x = m x := by
  induction ws generalizing m a with
  | nil => rfl
  | cons w ws ih =>
    show loadWords (store m (a % 65536) (w % 65536)) (a + 1) ws x = m x
    rw [ih (store m (a % 65536) (w % 65536)) (a + 1) ?_]
    · refine store_other _ _ ?_
      have h0 := h 0 (by simp)
      omega
    · intro i hi
      have hh := h (i + 1) (by simpa using Nat.succ_lt_succ hi)
      have : a + 1 + i = a + (i + 1) := by omega
      rw [this]
      exact hh

theorem loaderTouches_cons (img : Image) (rest : List Image) (x : Nat)
    (h : loaderTouches (img :: rest) x = false) :
    (∀ i, i < img.words.length → (img.origin + i) % 65536 ≠ x) ∧
      loaderTouches rest x = false := by
  simp only [loaderTouches, List.any_cons, Bool.or_eq_false_iff, List.any_eq_false,
    List.mem_range, decide_eq_false_iff_not] at h ⊢
  exact ⟨fun i hi hx => h.1 i hi (decide_eq_true hx), h.2⟩

theorem loadImages_untouched (imgs : List Image) (m : Nat → Nat) (x : Nat)
    (h : loaderTouches imgs x = false) : loadImages m imgs x = m x := by
  induction imgs generalizing m with
  | nil => rfl
  | cons img rest ih =>
    obtain ⟨h1, h2⟩ := loaderTouches_cons img rest x h
    show loadImages (loadWords m img.origin img.words) rest x = m x
    rw [ih _ h2]
    exact loadWords_untouched _ _ _ _ h1

/-- Claim C6: At the start of execution, before the first fetch: the PC is
0x3000, the condition-flags register is FL_ZRO, every general-purpose
register R0-R7 is 0, and every memory cell the loader does not write is
0. -/
theorem initial_state (imgs : List Image) (inp : Nat → Nat) (ka : Nat → Bool) :
    (initialMachine imgs inp ka).reg R_PC = 0x3000 ∧
    (initialMachine imgs inp ka).reg R_COND = FL_ZRO ∧
    (∀ i, i < 8 → (initialMachine imgs inp ka).reg i = 0) ∧
    (∀ a, loaderTouches imgs a = false → (initialMachine imgs inp ka).memory a = 0) := by
  refine ⟨rfl, ?_, ?_, ?_⟩
  · show store (store (fun _ => 0) R_COND FL_ZRO) R_PC 0x3000 R_COND = FL_ZRO
    rw [store_other _ _ (by unfold R_COND R_PC; omega)]
    exact store_self _ _ _
  · intro i hi
    show store (store (fun _ => 0) R_COND FL_ZRO) R_PC 0x3000 i = 0
    rw [store_other _ _ (by unfold R_PC; omega), store_other _ _ (by unfold R_COND; omega)]
  · intro a h
    exact loadImages_untouched imgs _ a h

theorem initial_state_witness :
    3 < 8 ∧ loaderTouches [⟨0x3000, [5]⟩] 0 = false ∧
      (initialMachine [⟨0x3000, [5]⟩] (fun _ => 0) (fun _ => false)).reg R_PC = 0x3000 ∧
      (initialMachine [⟨0x3000, [5]⟩] (fun _ => 0) (fun _ => false)).reg 3 = 0 ∧
      (initialMachine [⟨0x3000, [5]⟩] (fun _ => 0) (fun _ => false)).memory 0 = 0 :=
  ⟨by decide, by decide,
    (initial_state [⟨0x3000, [5]⟩] (fun _ => 0) (fun _ => false)).1,
    (initial_state [⟨0x3000, [5]⟩] (fun _ => 0) (fun _ => false)).2.2.1 3 (by decide),
    (initial_state [⟨0x3000, [5]⟩] (fun _ => 0) (fun _ => false)).2.2.2 0 (by decide)⟩

/-- Claim C7, counterexample: A run whose first fetched instruction carries
the reserved opcode 0x8 terminates through `abort()` with the terminal
input buffering NOT restored (`restore_input_buffering()` on line 195 of
`src/lc3.c` is never reached), refuting the claim that the raw-mode
teardown is performed on every exit path of the execution loop. -/
theorem teardown_missing_on_abort :
    restoredOn (lc3_main [some ⟨0x3000, [0x8000]⟩] (fun _ => 0) (fun _ => false) 2) =
      some false := by
  decide

/-- Claim C7, amended: The terminal raw-mode teardown is performed on the
normal-termination path (loop exit after HALT, before `main` returns 0)
and on the external-interrupt path, but NOT on the fatal-abort path: a run
that leaves the loop through `abort()` on a reserved opcode terminates
without restoring the input buffering. -/
theorem teardown_on_exit_paths :
    (∀ args inp ka fuel c e r,
        lc3_main args inp ka fuel = .exited c e r → e = true → r = true) ∧
    restoredOn handle_interrupt = some true ∧
    (∀ args inp ka fuel r, lc3_main args inp ka fuel = .aborted r → r = false) := by
  refine ⟨?_, rfl, ?_⟩
  · intro args inp ka fuel c e r h he
    unfold lc3_main at h
    split at h
    · cases h; cases he
    · split at h
      · cases h; cases he
      · split at h
        · cases h; rfl
        · cases h
        · cases h
  · intro args inp ka fuel r h
    unfold lc3_main at h
    split at h
    · cases h
    · split at h
      · cases h
      · split at h
        · cases h
        · cases h; rfl
        · cases h

theorem teardown_on_exit_paths_witness :
    lc3_main [some ⟨0x3000, [0xF025]⟩] (fun _ => 0) (fun _ => false) 2 =
      .exited 0 true true ∧
    (true : Bool) = true ∧ (false : Bool) = false :=
  ⟨by decide,
    (teardown_on_exit_paths).1 [some ⟨0x3000, [0xF025]⟩] (fun _ => 0) (fun _ => false) 2
      0 true true (by decide) rfl,
    (teardown_on_exit_paths).2.2 [some ⟨0x3000, [0x8000]⟩] (fun _ => 0) (fun _ => false) 2
      false (by decide)⟩

theorem checkImages_none (args : List (Option Image)) (h : none ∈ args) :
    checkImages args = none := by
  induction args with
  | nil => cases h
  | cons a rest ih =>
    cases a with
    | none => rfl
    | some img =>
      have hr : none ∈ rest := by
        cases h with
        | tail _ h => exact h
      show (checkImages rest).map _ = none
      rw [ih hr]
      rfl

/-- Claim C8: Invoked with zero image-file arguments the process exits with
code 2 without entering the execution loop; if any image file fails to
load it exits with code 1 without entering the execution loop; and any
exit that did enter the loop (normal termination after HALT) carries code
0, distinct from both. -/
theorem exit_codes :
    (∀ inp ka fuel, lc3_main [] inp ka fuel = .exited 2 false false) ∧
    (∀ args inp ka fuel, none ∈ args → lc3_main args inp ka fuel = .exited 1 false false) ∧
    (∀ args inp ka fuel c e r,
        lc3_main args inp ka fuel = .exited c e r → e = true → c = 0) ∧
    (2 : Nat) ≠ 0 ∧ (1 : Nat) ≠ 0 ∧ (2 : Nat) ≠ 1 := by
  refine ⟨fun inp ka fuel => rfl, ?_, ?_, by norm_num, by norm_num, by norm_num⟩
  · intro args inp ka fuel hmem
    have hempty : args.isEmpty = false := by
      cases args with
      | nil => cases hmem
      | cons a l => rfl
    unfold lc3_main
    rw [checkImages_none args hmem]
    simp [hempty]
  · intro args inp ka fuel c e r h he
    unfold lc3_main at h
    split at h
    · cases h; cases he
    · split at h
      · cases h; cases he
      · split at h
        · cases h; rfl
        · cases h
        · cases h

theorem exit_codes_witness :
    lc3_main [] (fun _ => 0) (fun _ => false) 0 = .exited 2 false false ∧
    lc3_main [none] (fun _ => 0) (fun _ => false) 0 = .exited 1 false false ∧
    lc3_main [some ⟨0x3000, [0xF025]⟩] (fun _ => 0) (fun _ => false) 2 =
      .exited 0 true true ∧
    (0 : Nat) = 0 :=
  ⟨(exit_codes).1 (fun _ => 0) (fun _ => false) 0,
    (exit_codes).2.1 [none] (fun _ => 0) (fun _ => false) 0 (List.Mem.head _),
    by decide,
    (exit_codes).2.2.1 [some ⟨0x3000, [0xF025]⟩] (fun _ => 0) (fun _ => false) 2
      0 true true (by decide) rfl⟩

end LC3
